import Mathlib

/-!
Shallow embedding of the geometric and segmentation core of the
emergency walking-directions generator, together with proofs settling the
specified properties of that core.

Conventions of the embedding:
- JavaScript numbers are modelled by real numbers; a coordinate array
  [lon, lat] becomes a pair of reals (longitude first, as in the source).
- Code that branches on real-valued comparisons is modelled with classical
  decidability, so the definitions mirror the source control flow exactly.
- The IEEE special values Infinity and NaN matter only for the behaviour of
  calculateBounds on an empty input; that behaviour is modelled separately
  and exactly with the JSNum type below.
-/

namespace EmergencyDirections

noncomputable section

open Real List

attribute [local instance] Classical.propDecidable

/-- A coordinate as stored in the source geometry arrays: [longitude, latitude]. -/
abbrev Coord : Type := ℝ × ℝ

/-- Degree-to-radian conversion, from utils/geo.ts (toRadians). -/
def toRadians (degrees : ℝ) : ℝ := degrees * π / 180

/-- JavaScript Math.atan2, by its case analysis on the signs of the arguments.
In this code base it is only ever applied to two nonnegative square roots,
so only the first branch is exercised. -/
def atan2 (y x : ℝ) : ℝ :=
  if 0 < x then arctan (y / x)
  else if x < 0 ∧ 0 ≤ y then arctan (y / x) + π
  else if x < 0 ∧ y < 0 then arctan (y / x) - π
  else if x = 0 ∧ 0 < y then π / 2
  else if x = 0 ∧ y < 0 then -(π / 2)
  else 0

/-- The intermediate quantity a of the haversine formula, exactly as written in
utils/geo.ts (the duplicate in the route-processing module writes the same
products with a power operator). -/
def havA (lat1 lon1 lat2 lon2 : ℝ) : ℝ :=
  sin (toRadians (lat2 - lat1) / 2) * sin (toRadians (lat2 - lat1) / 2) +
    cos (toRadians lat1) * cos (toRadians lat2) *
      sin (toRadians (lon2 - lon1) / 2) * sin (toRadians (lon2 - lon1) / 2)

/-- haversineDistance from utils/geo.ts: spherical distance in meters on an
Earth of radius 6371000 m. -/
def haversineDistance (lat1 lon1 lat2 lon2 : ℝ) : ℝ :=
  6371000 *
    (2 * atan2 (Real.sqrt (havA lat1 lon1 lat2 lon2))
      (Real.sqrt (1 - havA lat1 lon1 lat2 lon2)))

/-- calculatePathDistance from utils/geo.ts: sum of haversine distances over
consecutive coordinate pairs (the source accumulates left to right; over the
reals the grouping of the sum is immaterial). -/
def calculatePathDistance : List Coord → ℝ
  | p :: q :: rest =>
      haversineDistance p.2 p.1 q.2 q.1 + calculatePathDistance (q :: rest)
  | _ => 0

/-- The Bounds record of the source (types.ts). -/
structure Bounds where
  minLat : ℝ
  maxLat : ℝ
  minLon : ℝ
  maxLon : ℝ
  centerLat : ℝ
  centerLon : ℝ

/-- calculateBounds from utils/geo.ts, with the configured padding fraction
made an explicit parameter. The source folds Math.min / Math.max starting
from plus-or-minus Infinity; over the reals we seed the fold with the first
element, which agrees with the source on every nonempty input (the empty
input, where the Infinity seeds surface, is modelled exactly by
calculateBoundsJS below). -/
def calculateBounds (boundsPadding : ℝ) (coordinates : List Coord) : Bounds :=
  let lats := coordinates.map Prod.snd
  let lons := coordinates.map Prod.fst
  let minLat := lats.foldl min lats.headI
  let maxLat := lats.foldl max lats.headI
  let minLon := lons.foldl min lons.headI
  let maxLon := lons.foldl max lons.headI
  let latPad := (maxLat - minLat) * boundsPadding
  let lonPad := (maxLon - minLon) * boundsPadding
  { minLat := minLat - latPad
    maxLat := maxLat + latPad
    minLon := minLon - lonPad
    maxLon := maxLon + lonPad
    centerLat := (minLat + maxLat) / 2
    centerLon := (minLon + maxLon) / 2 }

/-- sampleCoordinates from utils/geo.ts. The function never inspects the
elements, so it is stated for an arbitrary element type. Division is natural
division (the source divides two nonnegative integers; for the degenerate
maxPoints = 0 the source stride is Infinity, and under either reading every
claim below evaluates the same way). -/
def sampleCoordinates {α : Type} (coordinates : List α) (maxPoints : ℕ) : List α :=
  if coordinates.length ≤ maxPoints then coordinates
  else
    let step := max 1 (coordinates.length / maxPoints)
    ((coordinates.enum.filter fun p => p.1 % step == 0).map Prod.snd)

/-- calculateZoomLevel from the SVG rendering module: degrees-per-pixel fit,
ideal zoom via log2, one extra level, clamped into the slippy-map range. -/
def calculateZoomLevel (bounds : Bounds) (width height : ℝ) : ℤ :=
  let latRange := bounds.maxLat - bounds.minLat
  let lonRange := bounds.maxLon - bounds.minLon
  let degreesPerPixelLon := lonRange / width
  let degreesPerPixelLat := latRange / height
  let degreesPerPixel := max degreesPerPixelLon degreesPerPixelLat
  let idealZoom := Real.logb 2 (360 / (256 * degreesPerPixel))
  max 12 (min 16 ⌈idealZoom + 1⌉)

end

/-!
An exact model of the JavaScript number semantics that calculateBounds
meets on an empty input: the min/max folds start from plus and minus
Infinity, and the padding and center arithmetic then mixes infinities,
producing NaN. Finite values are represented by rationals, which is exact
for every operation this function performs on them in the claims below.
-/

/-- A JavaScript number: NaN, the two infinities, or a finite value. -/
inductive JSNum where
  | nan : JSNum
  | posInf : JSNum
  | negInf : JSNum
  | fin : ℚ → JSNum
deriving DecidableEq

namespace JSNum

/-- IEEE negation. -/
def neg : JSNum → JSNum
  | nan => nan
  | posInf => negInf
  | negInf => posInf
  | fin q => fin (-q)

/-- IEEE addition: NaN propagates, and opposite infinities give NaN. -/
def add : JSNum → JSNum → JSNum
  | nan, _ => nan
  | _, nan => nan
  | posInf, negInf => nan
  | negInf, posInf => nan
  | posInf, _ => posInf
  | _, posInf => posInf
  | negInf, _ => negInf
  | _, negInf => negInf
  | fin a, fin b => fin (a + b)

/-- IEEE subtraction. -/
def sub (a b : JSNum) : JSNum := add a (neg b)

/-- IEEE multiplication: NaN propagates, and an infinity times zero is NaN. -/
def mul : JSNum → JSNum → JSNum
  | nan, _ => nan
  | _, nan => nan
  | posInf, posInf => posInf
  | posInf, negInf => negInf
  | negInf, posInf => negInf
  | negInf, negInf => posInf
  | posInf, fin q => if 0 < q then posInf else if q < 0 then negInf else nan
  | fin q, posInf => if 0 < q then posInf else if q < 0 then negInf else nan
  | negInf, fin q => if 0 < q then negInf else if q < 0 then posInf else nan
  | fin q, negInf => if 0 < q then negInf else if q < 0 then posInf else nan
  | fin a, fin b => fin (a * b)

/-- Halving, as used for the center computation. -/
def half : JSNum → JSNum
  | nan => nan
  | posInf => posInf
  | negInf => negInf
  | fin q => fin (q / 2)

/-- JavaScript Math.min: NaN if either argument is NaN. -/
def jmin : JSNum → JSNum → JSNum
  | nan, _ => nan
  | _, nan => nan
  | posInf, b => b
  | a, posInf => a
  | negInf, _ => negInf
  | _, negInf => negInf
  | fin a, fin b => fin (min a b)

/-- JavaScript Math.max: NaN if either argument is NaN. -/
def jmax : JSNum → JSNum → JSNum
  | nan, _ => nan
  | _, nan => nan
  | negInf, b => b
  | a, negInf => a
  | posInf, _ => posInf
  | _, posInf => posInf
  | fin a, fin b => fin (max a b)

end JSNum

/-- The Bounds record with JavaScript number fields. -/
structure JSBounds where
  minLat : JSNum
  maxLat : JSNum
  minLon : JSNum
  maxLon : JSNum
  centerLat : JSNum
  centerLon : JSNum
deriving DecidableEq

/-- calculateBounds from utils/geo.ts, modelled over JavaScript numbers with
the exact Infinity seeds of the source folds. Input coordinates are finite
[lon, lat] pairs of rationals. -/
def calculateBoundsJS (boundsPadding : ℚ) (coordinates : List (ℚ × ℚ)) : JSBounds :=
  let minLat := coordinates.foldl (fun m c => JSNum.jmin m (JSNum.fin c.2)) JSNum.posInf
  let maxLat := coordinates.foldl (fun m c => JSNum.jmax m (JSNum.fin c.2)) JSNum.negInf
  let minLon := coordinates.foldl (fun m c => JSNum.jmin m (JSNum.fin c.1)) JSNum.posInf
  let maxLon := coordinates.foldl (fun m c => JSNum.jmax m (JSNum.fin c.1)) JSNum.negInf
  let latPad := JSNum.mul (JSNum.sub maxLat minLat) (JSNum.fin boundsPadding)
  let lonPad := JSNum.mul (JSNum.sub maxLon minLon) (JSNum.fin boundsPadding)
  { minLat := JSNum.sub minLat latPad
    maxLat := JSNum.add maxLat latPad
    minLon := JSNum.sub minLon lonPad
    maxLon := JSNum.add maxLon lonPad
    centerLat := JSNum.half (JSNum.add minLat maxLat)
    centerLon := JSNum.half (JSNum.add minLon maxLon) }

/-!
Route segmentation, from the route-processing module: distance-threshold
splitting (segmentByDistance) and fixed-count splitting
(segmentByCoordinates, the same index arithmetic as the count-based
segmentRoute variant).
-/

noncomputable section

attribute [local instance] Classical.propDecidable

/-- The bounds padding fraction of the map configuration (the two historical
config versions use 0.25 and 0.35; no property below depends on the value). -/
def MAP_CONFIG_boundsPadding : ℝ := 0.25

/-- Average walking speed in meters per second, from the route configuration. -/
def ROUTE_CONFIG_walkingSpeedMps : ℝ := 1.34

/-- A processed navigation step (types.ts RouteStep). -/
structure RouteStep where
  instruction : String
  modifier : Option String
  name : String
  distance : ℝ
  duration : ℝ
  location : Coord

/-- A route segment (types.ts RouteSegment; the optional waypoints field is
never written by the segmentation code modelled here). -/
structure RouteSegment where
  index : ℕ
  coordinates : List Coord
  startCoord : Coord
  endCoord : Coord
  bounds : Bounds
  distance : ℝ
  duration : ℝ
  stepRange : Option (ℕ × ℕ)

/-- The segment record as pushed by both segmentation functions: start and end
coordinates are the first and last entries of the segment coordinates, the
distance is recomputed from the coordinates, and the duration derives from
the walking speed (calculateWalkingDuration in utils/format). -/
def mkRouteSegment (idx : ℕ) (segmentCoords : List Coord)
    (stepRange : Option (ℕ × ℕ)) : RouteSegment :=
  let distance := calculatePathDistance segmentCoords
  { index := idx
    coordinates := segmentCoords
    startCoord := segmentCoords.headI
    endCoord := segmentCoords.getLastI
    bounds := calculateBounds MAP_CONFIG_boundsPadding segmentCoords
    distance := distance
    duration := distance / ROUTE_CONFIG_walkingSpeedMps
    stepRange := stepRange }

/-- Auxiliary loop of findClosestCoordinate: the running best index and best
squared distance (none models the initial Infinity). -/
def findClosestAux (location : Coord) :
    List Coord → ℕ → ℕ → Option ℝ → ℕ
  | [], _, bestIdx, _ => bestIdx
  | c :: rest, i, bestIdx, bestDist =>
      let dist := (c.1 - location.1) ^ 2 + (c.2 - location.2) ^ 2
      match bestDist with
      | none => findClosestAux location rest (i + 1) i (some dist)
      | some b =>
          if dist < b then findClosestAux location rest (i + 1) i (some dist)
          else findClosestAux location rest (i + 1) bestIdx (some b)

/-- findClosestCoordinate from the route-processing module: index of the
coordinate with minimal squared degree-space distance to a location. -/
def findClosestCoordinate (coordinates : List Coord) (location : Coord) : ℕ :=
  findClosestAux location coordinates 0 0 none

/-- The step-range scan of segmentByDistance: the first and last step index
whose mapped coordinate index falls inside the segment index range. -/
def stepRangeFor (stepCoordIdxs : List ℕ)
    (segmentStartCoordIdx segmentEndCoordIdx : ℕ) : Option (ℕ × ℕ) :=
  let hits := (stepCoordIdxs.enum.filter fun p =>
    decide (segmentStartCoordIdx ≤ p.2 ∧ p.2 ≤ segmentEndCoordIdx)).map Prod.fst
  match hits.head?, hits.getLast? with
  | some f, some l => some (f, l)
  | _, _ => none

/-- The guard of the step-range computation: only when steps were provided and
the step-to-coordinate map is nonempty. -/
def distStepRange (stepCoordIdxs : Option (List ℕ))
    (segmentStartCoordIdx segmentEndCoordIdx : ℕ) : Option (ℕ × ℕ) :=
  match stepCoordIdxs with
  | none => none
  | some idxs =>
      if idxs = [] then none
      else stepRangeFor idxs segmentStartCoordIdx segmentEndCoordIdx

/-- A candidate segment is pushed only when it has at least 2 coordinates. -/
def distSegEmit (idx : ℕ) (segmentCoords : List Coord)
    (stepRange : Option (ℕ × ℕ)) : List RouteSegment :=
  if 2 ≤ segmentCoords.length then [mkRouteSegment idx segmentCoords stepRange]
  else []

/-- The walk of segmentByDistance over the coordinate list. cur holds the
coordinates of the segment under construction (its last element is prev),
accumulatedDistance the haversine length walked inside it, segmentStartIdx
and i the source loop indices, and idx the next 1-based segment index. A cut
happens when the accumulated distance reaches the target or at the final
point; the next segment starts at the cut point. -/
def segmentByDistanceGo (targetDistance : ℝ) (stepCoordIdxs : Option (List ℕ))
    (cur : List Coord) (accumulatedDistance : ℝ) (prev : Coord)
    (segmentStartIdx i idx : ℕ) : List Coord → List RouteSegment
  | [] => []
  | [p] =>
      distSegEmit idx (cur ++ [p]) (distStepRange stepCoordIdxs segmentStartIdx i)
  | p :: q :: r =>
      let d := accumulatedDistance + haversineDistance prev.2 prev.1 p.2 p.1
      if targetDistance ≤ d then
        let emitted :=
          distSegEmit idx (cur ++ [p]) (distStepRange stepCoordIdxs segmentStartIdx i)
        emitted ++ segmentByDistanceGo targetDistance stepCoordIdxs [p] 0 p i (i + 1)
          (idx + emitted.length) (q :: r)
      else
        segmentByDistanceGo targetDistance stepCoordIdxs (cur ++ [p]) d p
          segmentStartIdx (i + 1) idx (q :: r)

/-- segmentByDistance from the route-processing module: map each step to its
closest coordinate index, then walk the coordinates cutting at the target
distance. -/
def segmentByDistance (coordinates : List Coord) (targetDistance : ℝ)
    (steps : Option (List RouteStep)) : List RouteSegment :=
  let stepCoordIdxs :=
    steps.map fun ss => ss.map fun s => findClosestCoordinate coordinates s.location
  match coordinates with
  | [] => []
  | c :: rest => segmentByDistanceGo targetDistance stepCoordIdxs [c] 0 c 0 1 1 rest

/-- The coordinate slice of the i-th fixed-count segment: JavaScript
slice(startIdx, endIdx + 1), where the last segment runs to the end of the
route. -/
def countSegCoords (coordinates : List Coord) (numSegments i : ℕ) : List Coord :=
  let totalPoints := coordinates.length
  let pointsPerSegment := totalPoints / numSegments
  let startIdx := i * pointsPerSegment
  let endIdx := if i = numSegments - 1 then totalPoints - 1
    else (i + 1) * pointsPerSegment
  (coordinates.drop startIdx).take (endIdx + 1 - startIdx)

/-- One iteration of the fixed-count segmentation loop: push the segment for
index i and advance the running step index. The configuration values
(total step count, steps per segment, remainder, and whether steps were
provided) are computed once before the loop, as in the source. -/
def countSegBody (coordinates : List Coord)
    (numSegments stepCount stepsPerSegment extraSteps : ℕ) (hasSteps : Bool)
    (acc : List RouteSegment × ℕ) (i : ℕ) : List RouteSegment × ℕ :=
  let segmentCoords := countSegCoords coordinates numSegments i
  let segStepCount := stepsPerSegment + (if i < extraSteps then 1 else 0)
  let stepRange : Option (ℕ × ℕ) :=
    if hasSteps then some (acc.2, min (acc.2 + segStepCount - 1) (stepCount - 1))
    else none
  let stepIdxNext := if hasSteps then acc.2 + segStepCount else acc.2
  (acc.1 ++ [mkRouteSegment (i + 1) segmentCoords stepRange], stepIdxNext)

/-- segmentByCoordinates from the route-processing module (the same index
arithmetic as the count-based segmentRoute variant): always numSegments
slices, with steps distributed evenly by count and the remainder going to
the earliest segments. The fold state is the list built so far and the
running step index. -/
def segmentByCoordinates (coordinates : List Coord) (numSegments : ℕ)
    (steps : Option (List RouteStep)) : List RouteSegment :=
  let stepCount := match steps with | none => 0 | some ss => ss.length
  let stepsPerSegment := stepCount / numSegments
  let extraSteps := stepCount % numSegments
  let hasSteps := match steps with | none => false | some ss => decide (0 < ss.length)
  ((List.range numSegments).foldl
    (countSegBody coordinates numSegments stepCount stepsPerSegment extraSteps hasSteps)
    ([], 0)).1

end

/-!
POI label placement, from generatePOIMarkers in the SVG rendering module.
The geometric placement logic (filtering, dot clamping, side choice,
validated candidate search and the clamped fallback) is modelled in full;
the SVG string assembly around it carries no further geometric content.
-/

noncomputable section

attribute [local instance] Classical.propDecidable

/-- A point of interest; the placement logic reads only its position (the id,
name, category and priority fields of the source POI record feed the label
text and the upstream ordering, not the geometry). -/
structure POI where
  lat : ℝ
  lon : ℝ

/-- Pixel x of a longitude under the linear viewport projection (toSvgX). -/
def toSvgX (lon : ℝ) (bounds : Bounds) (width : ℝ) : ℝ :=
  (lon - bounds.minLon) / (bounds.maxLon - bounds.minLon) * width

/-- Pixel y of a latitude under the linear viewport projection, inverted
vertical axis (toSvgY). -/
def toSvgY (lat : ℝ) (bounds : Bounds) (height : ℝ) : ℝ :=
  height - (lat - bounds.minLat) / (bounds.maxLat - bounds.minLat) * height

/-- minDistanceToRoute: least degree-space Euclidean distance from a point to
the route vertices; none models the initial Infinity of the running minimum
(an empty route leaves it at Infinity, so the proximity filter rejects). -/
def minDistanceToRoute (poiLon poiLat : ℝ) (routeCoords : List Coord) : Option ℝ :=
  routeCoords.foldl
    (fun m c =>
      let dist := Real.sqrt ((c.1 - poiLon) ^ 2 + (c.2 - poiLat) ^ 2)
      match m with
      | none => some dist
      | some m0 => if dist < m0 then some dist else some m0)
    none

/-- Which side of the route a POI dot lies on. -/
inductive Side where
  | left : Side
  | right : Side

/-- getPOISideOfRoute: track the route vertex nearest to the dot in pixel
space (state: its x, and the running minimal distance, none = Infinity),
then compare abscissas. -/
def getPOISideOfRoute (poiX poiY : ℝ) (routeCoords : List Coord)
    (bounds : Bounds) (width height : ℝ) : Side :=
  let best := routeCoords.foldl
    (fun (acc : ℝ × Option ℝ) coord =>
      let routeX := toSvgX coord.1 bounds width
      let routeY := toSvgY coord.2 bounds height
      let dist := Real.sqrt ((routeX - poiX) ^ 2 + (routeY - poiY) ^ 2)
      match acc.2 with
      | none => (routeX, some dist)
      | some m0 => if dist < m0 then (routeX, some dist) else acc)
    (poiX, none)
  if poiX < best.1 then Side.left else Side.right

/-- distToRoute of generatePOIMarkers: minimal pixel distance from a point to
the projected polyline, by clamped projection onto each segment;
zero-length segments are skipped and none models the initial Infinity. -/
def distToRoute (routeSvg : List (ℝ × ℝ)) (px py : ℝ) : Option ℝ :=
  (routeSvg.zip routeSvg.tail).foldl
    (fun m ab =>
      let a := ab.1
      let b := ab.2
      let dx := b.1 - a.1
      let dy := b.2 - a.2
      let len2 := dx * dx + dy * dy
      if len2 = 0 then m
      else
        let t := max 0 (min 1 (((px - a.1) * dx + (py - a.2) * dy) / len2))
        let dist := Real.sqrt ((px - (a.1 + t * dx)) ^ 2 + (py - (a.2 + t * dy)) ^ 2)
        match m with
        | none => some dist
        | some m0 => if dist < m0 then some dist else some m0)
    none

/-- isValid of generatePOIMarkers: inside the 20 px viewport margin, at least
10 px from the route polyline, at least 18 px from the start and end
markers when present, and no closer than 22 px horizontally and 16 px
vertically simultaneously to any already placed label. -/
def isValidLabelPos (width height : ℝ) (routeSvg : List (ℝ × ℝ))
    (startPos endPos : Option (ℝ × ℝ)) (used : List (ℝ × ℝ)) (lx ly : ℝ) : Prop :=
  ¬(lx < 20 ∨ lx > width - 20 ∨ ly < 20 ∨ ly > height - 20) ∧
  ¬(∃ d, distToRoute routeSvg lx ly = some d ∧ d < 10) ∧
  (∀ s, startPos = some s → ¬Real.sqrt ((lx - s.1) ^ 2 + (ly - s.2) ^ 2) < 18) ∧
  (∀ e, endPos = some e → ¬Real.sqrt ((lx - e.1) ^ 2 + (ly - e.2) ^ 2) < 18) ∧
  ∀ p ∈ used, ¬(|lx - p.1| < 22 ∧ |ly - p.2| < 16)

/-- The candidate label positions in source search order: offsets 14, 22, 30,
vertical shifts 0, -12, 12, -24, 24, preferred side before opposite side. -/
def labelCandidates (dotX dotY dir : ℝ) : List (ℝ × ℝ) :=
  (([14, 22, 30] : List ℝ).map fun off =>
    (([0, -12, 12, -24, 24] : List ℝ).map fun yShift =>
      [(dotX + dir * off, dotY + yShift), (dotX - dir * off, dotY + yShift)]).flatten).flatten

/-- First element of a list satisfying a predicate (the first candidate the
source search accepts). -/
def firstValid (P : ℝ × ℝ → Prop) : List (ℝ × ℝ) → Option (ℝ × ℝ)
  | [] => none
  | c :: rest => if P c then some c else firstValid P rest

/-- One placed label: the clamped dot position, the accepted label position,
and whether the validated search found it (false means the clamped
fallback was used). -/
structure LabelPlacement where
  dotX : ℝ
  dotY : ℝ
  labelX : ℝ
  labelY : ℝ
  found : Bool

/-- The main loop of generatePOIMarkers over the proximity-filtered POIs:
stop at 3 placements, skip dots outside the viewport, clamp the dot, pick
the preferred side, search the candidate positions, and fall back to a
clamped offset position when none validates. -/
def generatePOIMarkersLoop (bounds : Bounds) (width height : ℝ)
    (routeCoords : List Coord) (routeSvg : List (ℝ × ℝ))
    (startPos endPos : Option (ℝ × ℝ)) :
    List POI → List LabelPlacement → List LabelPlacement
  | [], acc => acc
  | poi :: rest, acc =>
      if 3 ≤ acc.length then acc
      else
        let x := toSvgX poi.lon bounds width
        let y := toSvgY poi.lat bounds height
        if x < 0 ∨ x > width ∨ y < 0 ∨ y > height then
          generatePOIMarkersLoop bounds width height routeCoords routeSvg
            startPos endPos rest acc
        else
          let dotX := max 2 (min (width - 2) x)
          let dotY := max 2 (min (height - 2) y)
          let side := getPOISideOfRoute dotX dotY routeCoords bounds width height
          let dir : ℝ := match side with | Side.right => 1 | Side.left => -1
          let used := acc.map fun pl => (pl.labelX, pl.labelY)
          match firstValid
              (fun c => isValidLabelPos width height routeSvg startPos endPos used c.1 c.2)
              (labelCandidates dotX dotY dir) with
          | some c =>
              generatePOIMarkersLoop bounds width height routeCoords routeSvg
                startPos endPos rest
                (acc ++ [⟨dotX, dotY, c.1, c.2, true⟩])
          | none =>
              let lx := max 20 (min (width - 20) (dotX + dir * 14))
              let ly := max 20 (min (height - 20) dotY)
              generatePOIMarkersLoop bounds width height routeCoords routeSvg
                startPos endPos rest
                (acc ++ [⟨dotX, dotY, lx, ly, false⟩])

/-- generatePOIMarkers, reduced to its geometric output: the ordered list of
accepted label placements (the source serializes exactly these into SVG
markers). POIs arrive priority-sorted; the proximity filter keeps those
within 0.005 degrees of a route vertex. -/
def generatePOIMarkers (pois : List POI) (bounds : Bounds) (width height : ℝ)
    (routeCoords : List Coord) (startPos endPos : Option (ℝ × ℝ)) :
    List LabelPlacement :=
  if pois = [] then []
  else
    let nearbyPois := pois.filter fun poi =>
      decide (match minDistanceToRoute poi.lon poi.lat routeCoords with
        | none => False
        | some d => d < 0.005)
    let routeSvg := routeCoords.map fun c =>
      (toSvgX c.1 bounds width, toSvgY c.2 bounds height)
    generatePOIMarkersLoop bounds width height routeCoords routeSvg
      startPos endPos nearbyPois []

end

/-!
Theorems. Small general facts about folds and filters come first; the claim
theorems follow, one per claim.
-/

open Real List

section FoldFacts

theorem foldl_min_le_init : ∀ (l : List ℝ) (a : ℝ), l.foldl min a ≤ a := by
  intro l
  induction l with
  | nil => intro a; simp
  | cons x t ih => intro a; exact le_trans (ih (min a x)) (min_le_left a x)

theorem foldl_min_le_mem : ∀ (l : List ℝ) (x : ℝ), x ∈ l → ∀ a : ℝ, l.foldl min a ≤ x := by
  intro l
  induction l with
  | nil => intro x hx; cases hx
  | cons y t ih =>
    intro x hx a
    rcases List.mem_cons.mp hx with h | h
    · subst h; exact le_trans (foldl_min_le_init t _) (min_le_right a x)
    · exact ih x h _

theorem le_foldl_max_init : ∀ (l : List ℝ) (a : ℝ), a ≤ l.foldl max a := by
  intro l
  induction l with
  | nil => intro a; simp
  | cons x t ih => intro a; exact le_trans (le_max_left a x) (ih (max a x))

theorem le_foldl_max_mem : ∀ (l : List ℝ) (x : ℝ), x ∈ l → ∀ a : ℝ, x ≤ l.foldl max a := by
  intro l
  induction l with
  | nil => intro x hx; cases hx
  | cons y t ih =>
    intro x hx a
    rcases List.mem_cons.mp hx with h | h
    · subst h; exact le_trans (le_max_right a x) (le_foldl_max_init t _)
    · exact ih x h _

theorem length_filter_zip_fst {α : Type} (f : ℕ → Bool) :
    ∀ (il : List ℕ) (l : List α), il.length = l.length →
      ((il.zip l).filter fun p => f p.1).length = (il.filter f).length := by
  intro il
  induction il with
  | nil => intro l _; simp
  | cons i it ih =>
    intro l h
    cases l with
    | nil => simp at h
    | cons a t =>
      have ht : it.length = t.length := by simpa using h
      cases hfi : f i <;>
        simp [List.zip_cons_cons, List.filter_cons, hfi, ih t ht]

end FoldFacts

/-- C9: for every finite, non-degenerate bounding region (positive latitude
and longitude ranges) and positive viewport dimensions, the zoom level
chosen by calculateZoomLevel lies within [12, 16]. -/
theorem claim_C9_zoom_clamped (b : Bounds) (width height : ℝ)
    (hlat : 0 < b.maxLat - b.minLat) (hlon : 0 < b.maxLon - b.minLon)
    (hw : 0 < width) (hh : 0 < height) :
    12 ≤ calculateZoomLevel b width height ∧ calculateZoomLevel b width height ≤ 16 := by
  unfold calculateZoomLevel
  exact ⟨le_max_left _ _, max_le (by norm_num) (min_le_left _ _)⟩

theorem claim_C9_zoom_clamped_witness :
    12 ≤ calculateZoomLevel ⟨0, 1, 0, 1, 1/2, 1/2⟩ 100 100 ∧
      calculateZoomLevel ⟨0, 1, 0, 1, 1/2, 1/2⟩ 100 100 ≤ 16 :=
  claim_C9_zoom_clamped ⟨0, 1, 0, 1, 1/2, 1/2⟩ 100 100
    (by norm_num) (by norm_num) (by norm_num) (by norm_num)

/-- C8: for every nonempty coordinate list and nonnegative padding fraction,
the computed bounding region contains every input coordinate, and its
center coordinates are the midpoints of the padded extremes. -/
theorem claim_C8_bounds_contain (boundsPadding : ℝ) (coordinates : List Coord)
    (hne : coordinates ≠ []) (hpad : 0 ≤ boundsPadding) :
    (∀ c ∈ coordinates,
      (calculateBounds boundsPadding coordinates).minLat ≤ c.2 ∧
      c.2 ≤ (calculateBounds boundsPadding coordinates).maxLat ∧
      (calculateBounds boundsPadding coordinates).minLon ≤ c.1 ∧
      c.1 ≤ (calculateBounds boundsPadding coordinates).maxLon) ∧
    (calculateBounds boundsPadding coordinates).centerLat =
      ((calculateBounds boundsPadding coordinates).minLat +
        (calculateBounds boundsPadding coordinates).maxLat) / 2 ∧
    (calculateBounds boundsPadding coordinates).centerLon =
      ((calculateBounds boundsPadding coordinates).minLon +
        (calculateBounds boundsPadding coordinates).maxLon) / 2 := by
  unfold calculateBounds
  refine ⟨?_, by ring, by ring⟩
  intro c hc
  have hlat : c.2 ∈ coordinates.map Prod.snd := List.mem_map_of_mem Prod.snd hc
  have hlon : c.1 ∈ coordinates.map Prod.fst := List.mem_map_of_mem Prod.fst hc
  have h1 := foldl_min_le_mem _ _ hlat (coordinates.map Prod.snd).headI
  have h2 := le_foldl_max_mem _ _ hlat (coordinates.map Prod.snd).headI
  have h3 := foldl_min_le_mem _ _ hlon (coordinates.map Prod.fst).headI
  have h4 := le_foldl_max_mem _ _ hlon (coordinates.map Prod.fst).headI
  have hpadLat : 0 ≤ ((coordinates.map Prod.snd).foldl max (coordinates.map Prod.snd).headI -
      (coordinates.map Prod.snd).foldl min (coordinates.map Prod.snd).headI) * boundsPadding :=
    mul_nonneg (by linarith) hpad
  have hpadLon : 0 ≤ ((coordinates.map Prod.fst).foldl max (coordinates.map Prod.fst).headI -
      (coordinates.map Prod.fst).foldl min (coordinates.map Prod.fst).headI) * boundsPadding :=
    mul_nonneg (by linarith) hpad
  exact ⟨by simpa using by linarith, by simpa using by linarith,
    by simpa using by linarith, by simpa using by linarith⟩

theorem claim_C8_bounds_contain_witness :
    (([((0:ℝ), (0:ℝ)), (1, 2)] : List Coord) ≠ []) ∧
    ((∀ c ∈ ([((0:ℝ), (0:ℝ)), (1, 2)] : List Coord),
      (calculateBounds (1/4) [((0:ℝ), (0:ℝ)), (1, 2)]).minLat ≤ c.2 ∧
      c.2 ≤ (calculateBounds (1/4) [((0:ℝ), (0:ℝ)), (1, 2)]).maxLat ∧
      (calculateBounds (1/4) [((0:ℝ), (0:ℝ)), (1, 2)]).minLon ≤ c.1 ∧
      c.1 ≤ (calculateBounds (1/4) [((0:ℝ), (0:ℝ)), (1, 2)]).maxLon) ∧
    (calculateBounds (1/4) [((0:ℝ), (0:ℝ)), (1, 2)]).centerLat =
      ((calculateBounds (1/4) [((0:ℝ), (0:ℝ)), (1, 2)]).minLat +
        (calculateBounds (1/4) [((0:ℝ), (0:ℝ)), (1, 2)]).maxLat) / 2 ∧
    (calculateBounds (1/4) [((0:ℝ), (0:ℝ)), (1, 2)]).centerLon =
      ((calculateBounds (1/4) [((0:ℝ), (0:ℝ)), (1, 2)]).minLon +
        (calculateBounds (1/4) [((0:ℝ), (0:ℝ)), (1, 2)]).maxLon) / 2) :=
  ⟨by simp, claim_C8_bounds_contain (1/4) [((0:ℝ), (0:ℝ)), (1, 2)] (by simp) (by norm_num)⟩

/-- Length of a decimated list, reduced to a filter over the index range. -/
theorem sampleCoordinates_length_eq {α : Type} (l : List α) (m : ℕ)
    (h : ¬ l.length ≤ m) :
    (sampleCoordinates l m).length =
      ((List.range l.length).filter fun i => i % max 1 (l.length / m) == 0).length := by
  unfold sampleCoordinates
  rw [if_neg h]
  simp only [List.length_map]
  rw [List.enum_eq_zip_range]
  exact length_filter_zip_fst (fun i => i % max 1 (l.length / m) == 0)
    (List.range l.length) l (by simp)

set_option maxRecDepth 4000 in
/-- C5 counterexample: on a 250-element sequence with maxPoints 100, decimate
returns 125 elements, not the 84 = ceil(250/3) the claim states. -/
theorem claim_C5_counterexample :
    (sampleCoordinates (List.range 250) 100).length ≠ 84 := by decide

set_option maxRecDepth 4000 in
/-- C5, amended: decimate on any 250-element sequence with maxPoints 100 keeps
every 2nd element (stride max(1, floor(250/100)) = 2), returning
ceil(250/2) = 125 elements. -/
theorem claim_C5_decimate_250 {α : Type} (l : List α) (h : l.length = 250) :
    (sampleCoordinates l 100).length = 125 := by
  rw [sampleCoordinates_length_eq l 100 (by omega), h]
  decide

theorem claim_C5_decimate_250_witness :
    (List.range 250).length = 250 ∧ (sampleCoordinates (List.range 250) 100).length = 125 :=
  ⟨by simp, claim_C5_decimate_250 (List.range 250) (by simp)⟩

/-- C10: decimation of a nonempty list is nonempty, keeps the first element,
and is a subsequence of the input (elements are only ever dropped after the
first one, possibly including the final coordinate). -/
theorem claim_C10_decimate_head {α : Type} [Inhabited α] (l : List α) (m : ℕ)
    (h : l ≠ []) :
    sampleCoordinates l m ≠ [] ∧ (sampleCoordinates l m).headI = l.headI ∧
      List.Sublist (sampleCoordinates l m) l := by
  have hsub : List.Sublist (sampleCoordinates l m) l := by
    unfold sampleCoordinates
    by_cases hle : l.length ≤ m
    · rw [if_pos hle]
    · rw [if_neg hle]
      have h1 := (List.filter_sublist (p := fun p => p.1 % max 1 (l.length / m) == 0) l.enum).map
        Prod.snd
      rwa [List.enum_map_snd] at h1
  by_cases hle : l.length ≤ m
  · have hval : sampleCoordinates l m = l := by
      unfold sampleCoordinates
      rw [if_pos hle]
    rw [hval]
    exact ⟨h, rfl, List.Sublist.refl l⟩
  · obtain ⟨a, t, rfl⟩ := List.exists_cons_of_ne_nil h
    have hval : sampleCoordinates (a :: t) m =
        a :: ((List.enumFrom 1 t).filter fun p =>
          p.1 % max 1 ((a :: t).length / m) == 0).map Prod.snd := by
      simp only [sampleCoordinates, if_neg hle]
      rw [show (a :: t).enum = (0, a) :: List.enumFrom 1 t from rfl]
      rw [List.filter_cons]
      simp [Nat.zero_mod]
    rw [hval] at hsub ⊢
    exact ⟨by simp, by simp, hsub⟩

theorem claim_C10_decimate_head_witness :
    (([3, 1, 4, 1, 5] : List ℕ) ≠ []) ∧
    (sampleCoordinates ([3, 1, 4, 1, 5] : List ℕ) 2 ≠ [] ∧
      (sampleCoordinates ([3, 1, 4, 1, 5] : List ℕ) 2).headI = ([3, 1, 4, 1, 5] : List ℕ).headI ∧
      List.Sublist (sampleCoordinates ([3, 1, 4, 1, 5] : List ℕ) 2) [3, 1, 4, 1, 5]) :=
  ⟨by decide, claim_C10_decimate_head [3, 1, 4, 1, 5] 2 (by decide)⟩

/-- Value of the bounds computation on the empty list: the Infinity fold seeds
pass through the padding arithmetic and poison the centers to NaN. -/
theorem calculateBoundsJS_empty_eq (pad : ℚ) (hpad : 0 < pad) :
    calculateBoundsJS pad [] =
      ⟨JSNum.posInf, JSNum.negInf, JSNum.posInf, JSNum.negInf, JSNum.nan, JSNum.nan⟩ := by
  unfold calculateBoundsJS
  simp [JSNum.sub, JSNum.add, JSNum.neg, JSNum.mul, JSNum.half, hpad]

/-- C7 counterexample: on an empty coordinate list the bounds computation does
not fail; it silently returns a Bounds record with infinite extremes and
NaN centers. -/
theorem claim_C7_counterexample :
    (calculateBoundsJS (1/4) []).centerLat = JSNum.nan ∧
    (calculateBoundsJS (1/4) []).centerLon = JSNum.nan ∧
    (calculateBoundsJS (1/4) []).minLat = JSNum.posInf ∧
    (calculateBoundsJS (1/4) []).maxLat = JSNum.negInf := by
  rw [calculateBoundsJS_empty_eq (1/4) (by norm_num)]
  exact ⟨rfl, rfl, rfl, rfl⟩

/-- C7, amended: for any positive padding fraction, calculateBounds on an
empty coordinate list silently returns the degenerate record with
minLat = Infinity, maxLat = -Infinity (likewise for longitude) and NaN
centers; it does not fail fast and the numeric fields are garbage. -/
theorem claim_C7_bounds_empty_silent (pad : ℚ) (hpad : 0 < pad) :
    calculateBoundsJS pad [] =
      ⟨JSNum.posInf, JSNum.negInf, JSNum.posInf, JSNum.negInf, JSNum.nan, JSNum.nan⟩ :=
  calculateBoundsJS_empty_eq pad hpad

theorem havA_comm (lat1 lon1 lat2 lon2 : ℝ) :
    havA lat1 lon1 lat2 lon2 = havA lat2 lon2 lat1 lon1 := by
  unfold havA toRadians
  rw [show lat1 - lat2 = -(lat2 - lat1) by ring, show lon1 - lon2 = -(lon2 - lon1) by ring]
  simp only [neg_mul, neg_div, Real.sin_neg]
  ring

theorem havA_self (lat lon : ℝ) : havA lat lon lat lon = 0 := by
  unfold havA toRadians
  simp

theorem atan2_zero_one : atan2 0 1 = 0 := by
  unfold atan2
  rw [if_pos one_pos]
  simp

theorem haversineDistance_eq_zero_of_havA (lat1 lon1 lat2 lon2 : ℝ)
    (h : havA lat1 lon1 lat2 lon2 = 0) :
    haversineDistance lat1 lon1 lat2 lon2 = 0 := by
  unfold haversineDistance
  rw [h]
  simp [atan2_zero_one]

/-- C6 counterexample: the coordinates (lon 0, lat 90) and (lon 90, lat 90)
are distinct pairs, yet their haversine distance is exactly 0, because the
latitude difference vanishes and cos(90 degrees) = 0 kills the longitude
term. The zero-iff-equal half of the claim fails. -/
theorem claim_C6_counterexample :
    haversineDistance 90 0 90 90 = 0 ∧ ((0:ℝ), (90:ℝ)) ≠ ((90:ℝ), (90:ℝ)) := by
  constructor
  · apply haversineDistance_eq_zero_of_havA
    unfold havA toRadians
    rw [show (90:ℝ) * π / 180 = π / 2 by ring]
    simp [Real.cos_pi_div_two]
  · intro h
    have := congrArg Prod.fst h
    norm_num at this

/-- C6, amended: the haversine distance is symmetric in its two coordinates,
and the distance from a coordinate to itself is 0; however zero distance
does not imply equal coordinate pairs (see the pole counterexample). -/
theorem claim_C6_haversine_sym_refl (lat1 lon1 lat2 lon2 : ℝ) :
    haversineDistance lat1 lon1 lat2 lon2 = haversineDistance lat2 lon2 lat1 lon1 ∧
    haversineDistance lat1 lon1 lat1 lon1 = 0 := by
  constructor
  · unfold haversineDistance
    rw [havA_comm]
  · exact haversineDistance_eq_zero_of_havA _ _ _ _ (havA_self lat1 lon1)

theorem claim_C7_bounds_empty_silent_witness :
    (0 < (1/4 : ℚ)) ∧
    calculateBoundsJS (1/4) [] =
      ⟨JSNum.posInf, JSNum.negInf, JSNum.posInf, JSNum.negInf, JSNum.nan, JSNum.nan⟩ :=
  ⟨by norm_num, claim_C7_bounds_empty_silent (1/4) (by norm_num)⟩

section DistanceSegmentation

/-- Splitting a path sum at an interior point: the two sub-paths share the
point y, and their lengths add up to the whole. -/
theorem pathDist_append_cons :
    ∀ (xs : List Coord), xs ≠ [] → ∀ (y : Coord) (ys : List Coord),
      calculatePathDistance (xs ++ y :: ys) =
        calculatePathDistance (xs ++ [y]) + calculatePathDistance (y :: ys) := by
  intro xs
  induction xs with
  | nil => intro h; cases h rfl
  | cons a xs2 ih =>
    intro _ y ys
    cases xs2 with
    | nil =>
      simp only [List.cons_append, List.nil_append, calculatePathDistance]
      ring
    | cons b xs3 =>
      have h2 := ih (by simp) y ys
      simp only [List.cons_append, List.append_eq, calculatePathDistance] at h2 ⊢
      rw [h2]
      ring

theorem distSegEmit_of_ne_nil (idx : ℕ) (cur : List Coord) (p : Coord)
    (sr : Option (ℕ × ℕ)) (h : cur ≠ []) :
    distSegEmit idx (cur ++ [p]) sr = [mkRouteSegment idx (cur ++ [p]) sr] := by
  unfold distSegEmit
  have hlen : 2 ≤ (cur ++ [p]).length := by
    have : 0 < cur.length := List.length_pos.mpr h
    simp only [List.length_append, List.length_cons, List.length_nil]
    omega
  rw [if_pos hlen]

theorem mkRouteSegment_distance (idx : ℕ) (l : List Coord) (sr : Option (ℕ × ℕ)) :
    (mkRouteSegment idx l sr).distance = calculatePathDistance l := rfl

theorem mkRouteSegment_coordinates (idx : ℕ) (l : List Coord) (sr : Option (ℕ × ℕ)) :
    (mkRouteSegment idx l sr).coordinates = l := rfl

theorem mkRouteSegment_startCoord (idx : ℕ) (l : List Coord) (sr : Option (ℕ × ℕ)) :
    (mkRouteSegment idx l sr).startCoord = l.headI := rfl

theorem mkRouteSegment_endCoord (idx : ℕ) (l : List Coord) (sr : Option (ℕ × ℕ)) :
    (mkRouteSegment idx l sr).endCoord = l.getLastI := rfl

theorem getLastI_concat (l : List Coord) (a : Coord) : (l ++ [a]).getLastI = a := by
  rw [List.getLastI_eq_getLast?, List.getLast?_concat]

theorem headI_append_singleton (l : List Coord) (a : Coord) (h : l ≠ []) :
    (l ++ [a]).headI = l.headI := by
  cases l with
  | nil => cases h rfl
  | cons x t => simp

/-- The distances of the segments emitted by the distance walk add up to the
path length of the coordinates walked (current partial segment plus the
remaining points). -/
theorem segGo_sum (target : ℝ) (sci : Option (List ℕ)) :
    ∀ (rest : List Coord), rest ≠ [] →
    ∀ (cur : List Coord) (accD : ℝ) (prev : Coord) (sIdx i idx : ℕ), cur ≠ [] →
      ((segmentByDistanceGo target sci cur accD prev sIdx i idx rest).map
        (fun s => s.distance)).sum = calculatePathDistance (cur ++ rest) := by
  intro rest
  induction rest with
  | nil => intro h; cases h rfl
  | cons p r ih =>
    intro _ cur accD prev sIdx i idx hcur
    cases r with
    | nil =>
      simp only [segmentByDistanceGo]
      rw [distSegEmit_of_ne_nil _ _ _ _ hcur]
      simp [mkRouteSegment_distance]
    | cons q r2 =>
      simp only [segmentByDistanceGo]
      by_cases hcut : target ≤ accD + haversineDistance prev.2 prev.1 p.2 p.1
      · rw [if_pos hcut, distSegEmit_of_ne_nil _ _ _ _ hcur]
        have hih := ih (by simp) [p] 0 p i (i + 1) (idx + 1) (by simp)
        simp only [List.length_cons, List.length_nil, List.map_cons, List.map_append,
          List.sum_cons, List.sum_append, List.map_nil, List.sum_nil,
          mkRouteSegment_distance, List.cons_append, List.nil_append] at hih ⊢
        rw [hih, pathDist_append_cons cur hcur p (q :: r2)]
      · rw [if_neg hcut]
        have hih := ih (by simp) (cur ++ [p]) (accD + haversineDistance prev.2 prev.1 p.2 p.1)
          p sIdx (i + 1) idx (by simp)
        rw [hih]
        simp [List.append_assoc]

/-- The segments emitted by the distance walk form a continuous chain: the
first starts at the head of the current partial segment, and each segment
ends where the next starts. -/
theorem segGo_chain (target : ℝ) (sci : Option (List ℕ)) :
    ∀ (rest : List Coord),
    ∀ (cur : List Coord) (accD : ℝ) (prev : Coord) (sIdx i idx : ℕ), cur ≠ [] →
      List.Chain' (fun s t => s.endCoord = t.startCoord)
        (segmentByDistanceGo target sci cur accD prev sIdx i idx rest) ∧
      ∀ s ∈ (segmentByDistanceGo target sci cur accD prev sIdx i idx rest).head?,
        s.startCoord = cur.headI := by
  intro rest
  induction rest with
  | nil =>
    intro cur accD prev sIdx i idx _
    simp [segmentByDistanceGo]
  | cons p r ih =>
    intro cur accD prev sIdx i idx hcur
    cases r with
    | nil =>
      simp only [segmentByDistanceGo]
      rw [distSegEmit_of_ne_nil _ _ _ _ hcur]
      refine ⟨List.chain'_singleton _, ?_⟩
      intro s hs
      simp only [List.head?_cons, Option.mem_def, Option.some.injEq] at hs
      rw [← hs, mkRouteSegment_startCoord, headI_append_singleton _ _ hcur]
    | cons q r2 =>
      simp only [segmentByDistanceGo]
      by_cases hcut : target ≤ accD + haversineDistance prev.2 prev.1 p.2 p.1
      · rw [if_pos hcut, distSegEmit_of_ne_nil _ _ _ _ hcur]
        have hih := ih [p] 0 p i (i + 1) (idx + 1) (by simp)
        simp only [List.length_cons, List.length_nil, List.cons_append, List.nil_append]
        constructor
        · rw [List.chain'_cons']
          refine ⟨?_, hih.1⟩
          intro y hy
          have hy2 := hih.2 y hy
          rw [mkRouteSegment_endCoord, getLastI_concat, hy2]
          simp
        · intro s hs
          simp only [List.head?_cons, Option.mem_def, Option.some.injEq] at hs
          rw [← hs, mkRouteSegment_startCoord, headI_append_singleton _ _ hcur]
      · rw [if_neg hcut]
        have hih := ih (cur ++ [p]) (accD + haversineDistance prev.2 prev.1 p.2 p.1)
          p sIdx (i + 1) idx (by simp)
        refine ⟨hih.1, ?_⟩
        intro s hs
        rw [hih.2 s hs, headI_append_singleton _ _ hcur]

/-- C2: for every route with at least 2 coordinates, every positive distance
target and any optional step list, distance-threshold segmentation yields
segments where each segment ends exactly where the next starts, and the
segment distances sum to the path length of the whole route (exactly, in
the real-number model, hence within any floating-point tolerance). -/
theorem claim_C2_distance_invariants (coordinates : List Coord) (targetDistance : ℝ)
    (steps : Option (List RouteStep)) (hlen : 2 ≤ coordinates.length)
    (hpos : 0 < targetDistance) :
    List.Chain' (fun s t => s.endCoord = t.startCoord)
      (segmentByDistance coordinates targetDistance steps) ∧
    ((segmentByDistance coordinates targetDistance steps).map fun s => s.distance).sum =
      calculatePathDistance coordinates := by
  cases coordinates with
  | nil => simp at hlen
  | cons c rest =>
    have hrest : rest ≠ [] := by
      intro h
      rw [h] at hlen
      simp at hlen
    have hshow : segmentByDistance (c :: rest) targetDistance steps =
        segmentByDistanceGo targetDistance
          (steps.map fun ss => ss.map fun s => findClosestCoordinate (c :: rest) s.location)
          [c] 0 c 0 1 1 rest := rfl
    rw [hshow]
    constructor
    · exact (segGo_chain _ _ rest [c] 0 c 0 1 1 (by simp)).1
    · rw [segGo_sum _ _ rest hrest [c] 0 c 0 1 1 (by simp)]
      simp

theorem claim_C2_distance_invariants_witness :
    (2 ≤ ([((0:ℝ), (0:ℝ)), (1, 0)] : List Coord).length) ∧ ((0:ℝ) < 1000) ∧
    (List.Chain' (fun s t => s.endCoord = t.startCoord)
      (segmentByDistance [((0:ℝ), (0:ℝ)), (1, 0)] 1000 none) ∧
    ((segmentByDistance [((0:ℝ), (0:ℝ)), (1, 0)] 1000 none).map fun s => s.distance).sum =
      calculatePathDistance [((0:ℝ), (0:ℝ)), (1, 0)]) :=
  ⟨by simp, by norm_num,
    claim_C2_distance_invariants [((0:ℝ), (0:ℝ)), (1, 0)] 1000 none (by simp) (by norm_num)⟩

end DistanceSegmentation

section ScenarioC1

/-- The three collinear coordinates of the spec scenario, as [lon, lat] pairs
spaced 0.009044 degrees of latitude apart. -/
def routeC1 : List Coord := [(0, 0), (0, 0.009044), (0, 0.018088)]

/-- Exact value of one scenario hop: for two points on the same meridian
0.009044 degrees of latitude apart, the haversine distance reduces to
radius times central angle. -/
theorem haversine_hop (lat1 lat2 : ℝ) (h : lat2 - lat1 = 0.009044) :
    haversineDistance lat1 0 lat2 0 = 6371000 * (0.009044 * π / 180) := by
  have hpi := Real.pi_pos
  have ht0 : (0:ℝ) < 0.009044 * π / 180 / 2 := by positivity
  have htlt : 0.009044 * π / 180 / 2 < π / 2 := by nlinarith
  have hA : havA lat1 0 lat2 0 =
      sin (0.009044 * π / 180 / 2) * sin (0.009044 * π / 180 / 2) := by
    unfold havA toRadians
    rw [h]
    norm_num
  have hsin0 : 0 ≤ sin (0.009044 * π / 180 / 2) :=
    Real.sin_nonneg_of_nonneg_of_le_pi (le_of_lt ht0) (by nlinarith)
  have hcos0 : 0 < cos (0.009044 * π / 180 / 2) :=
    Real.cos_pos_of_mem_Ioo ⟨by nlinarith, htlt⟩
  have h1 : (1:ℝ) - sin (0.009044 * π / 180 / 2) * sin (0.009044 * π / 180 / 2) =
      cos (0.009044 * π / 180 / 2) * cos (0.009044 * π / 180 / 2) := by
    linear_combination (-1 : ℝ) * Real.sin_sq_add_cos_sq (0.009044 * π / 180 / 2)
  unfold haversineDistance
  rw [hA, h1, Real.sqrt_mul_self hsin0, Real.sqrt_mul_self (le_of_lt hcos0)]
  unfold atan2
  rw [if_pos hcos0, ← Real.tan_eq_sin_div_cos,
    Real.arctan_tan (by nlinarith) htlt]
  ring

/-- One scenario hop is about 1005.7 m, well under the 1500 m target. -/
theorem haversine_hop_lt_1500 : 6371000 * (0.009044 * π / 180) < 1500 := by
  nlinarith [Real.pi_lt_d2]

/-- Distance-threshold segmentation of the scenario route with a 1500 m
target: the first hop leaves the accumulated distance below the target, so
the only cut happens at the final point, producing a single segment that
spans the whole route. -/
theorem segmentByDistance_routeC1 :
    segmentByDistance routeC1 1500 none = [mkRouteSegment 1 routeC1 none] := by
  have hcond : ¬ ((1500:ℝ) ≤ 0 + haversineDistance 0 0 0.009044 0) := by
    rw [haversine_hop 0 0.009044 (by norm_num)]
    have := haversine_hop_lt_1500
    linarith
  have hshow : segmentByDistance routeC1 1500 none =
      segmentByDistanceGo 1500 none [((0:ℝ), (0:ℝ))] 0 ((0:ℝ), (0:ℝ)) 0 1 1
        [((0:ℝ), 0.009044), ((0:ℝ), 0.018088)] := rfl
  rw [hshow]
  simp only [segmentByDistanceGo]
  rw [if_neg (by simpa using hcond)]
  simp only [segmentByDistanceGo, distSegEmit, distStepRange]
  norm_num [routeC1]

/-- C1 counterexample: the scenario segmentation returns one segment, not the
two segments the claim asserts. -/
theorem claim_C1_counterexample :
    (segmentByDistance routeC1 1500 none).length ≠ 2 := by
  rw [segmentByDistance_routeC1]
  simp

/-- C1, amended: for the three scenario coordinates with a 1500 m target, the
cut rule (cut when the accumulated distance reaches the target or the route
ends) fires only at the final point, so segmentation returns exactly 1
segment spanning all three coordinates, from (0,0) to (0, 0.018088), whose
distance is the full path length of about 2011 m (between 2010 and 2017 m);
its end coordinate is the route end, and there is no second segment. -/
theorem claim_C1_distance_scenario :
    (segmentByDistance routeC1 1500 none).length = 1 ∧
    ((segmentByDistance routeC1 1500 none).map fun s => s.coordinates) = [routeC1] ∧
    ((segmentByDistance routeC1 1500 none).map fun s => s.startCoord) = [((0:ℝ), (0:ℝ))] ∧
    ((segmentByDistance routeC1 1500 none).map fun s => s.endCoord) =
      [((0:ℝ), (0.018088:ℝ))] ∧
    ((segmentByDistance routeC1 1500 none).map fun s => s.distance) =
      [calculatePathDistance routeC1] ∧
    2010 < calculatePathDistance routeC1 ∧ calculatePathDistance routeC1 < 2017 := by
  have hd : calculatePathDistance routeC1 =
      6371000 * (0.009044 * π / 180) + (6371000 * (0.009044 * π / 180) + 0) := by
    have hr : calculatePathDistance routeC1 =
        haversineDistance 0 0 0.009044 0 +
          (haversineDistance 0.009044 0 0.018088 0 + 0) := rfl
    rw [hr, haversine_hop 0 0.009044 (by norm_num),
      haversine_hop 0.009044 0.018088 (by norm_num)]
  refine ⟨?_, ?_, ?_, ?_, ?_, ?_, ?_⟩
  · rw [segmentByDistance_routeC1]; rfl
  · rw [segmentByDistance_routeC1]; rfl
  · rw [segmentByDistance_routeC1]; rfl
  · rw [segmentByDistance_routeC1]; rfl
  · rw [segmentByDistance_routeC1]; rfl
  · rw [hd]; nlinarith [Real.pi_gt_d6]
  · rw [hd]; nlinarith [Real.pi_lt_d2]

end ScenarioC1

section FixedCountSegmentation

/-- The coordinate lists of the segments accumulated by the fixed-count loop:
the body appends exactly one segment per index, whose coordinates depend
only on the index. -/
theorem countFold_map_coords (coordinates : List Coord)
    (numSegments stepCount stepsPerSegment extraSteps : ℕ) (hasSteps : Bool) :
    ∀ (l : List ℕ) (acc : List RouteSegment) (st : ℕ),
      (((l.foldl (countSegBody coordinates numSegments stepCount stepsPerSegment
        extraSteps hasSteps) (acc, st)).1).map fun s => s.coordinates) =
        (acc.map fun s => s.coordinates) ++
          l.map (countSegCoords coordinates numSegments) := by
  intro l
  induction l with
  | nil => intro acc st; simp
  | cons i t ih =>
    intro acc st
    simp only [List.foldl_cons, List.map_cons]
    rw [show countSegBody coordinates numSegments stepCount stepsPerSegment
      extraSteps hasSteps (acc, st) i =
        (acc ++ [mkRouteSegment (i + 1) (countSegCoords coordinates numSegments i)
          (if hasSteps then
            some (st, min (st + (stepsPerSegment + (if i < extraSteps then 1 else 0)) - 1)
              (stepCount - 1))
          else none)],
         if hasSteps then st + (stepsPerSegment + (if i < extraSteps then 1 else 0))
         else st) from rfl]
    rw [ih]
    simp [mkRouteSegment_coordinates]

/-- The segment coordinate lists of fixed-count segmentation, one slice per
index of the range. -/
theorem segmentByCoordinates_coords_map (coordinates : List Coord) (numSegments : ℕ)
    (steps : Option (List RouteStep)) :
    ((segmentByCoordinates coordinates numSegments steps).map fun s => s.coordinates) =
      (List.range numSegments).map (countSegCoords coordinates numSegments) := by
  have h := countFold_map_coords coordinates numSegments
    (match steps with | none => 0 | some ss => ss.length)
    ((match steps with | none => 0 | some ss => ss.length) / numSegments)
    ((match steps with | none => 0 | some ss => ss.length) % numSegments)
    (match steps with | none => false | some ss => decide (0 < ss.length))
    (List.range numSegments) [] 0
  simpa [segmentByCoordinates] using h

/-- Every fixed-count slice has at least 2 coordinates when the route has
strictly more coordinates than there are segments. -/
theorem countSegCoords_length_ge_two (coordinates : List Coord) (numSegments i : ℕ)
    (hi : i < numSegments) (hlen : numSegments < coordinates.length) :
    2 ≤ (countSegCoords coordinates numSegments i).length := by
  have hN : 0 < numSegments := Nat.pos_of_ne_zero (by omega)
  have hdm := Nat.div_add_mod coordinates.length numSegments
  have hr : coordinates.length % numSegments < numSegments :=
    Nat.mod_lt _ hN
  have hpps : 1 ≤ coordinates.length / numSegments :=
    (Nat.one_le_div_iff hN).mpr (le_of_lt hlen)
  unfold countSegCoords
  simp only [List.length_take, List.length_drop]
  by_cases hi2 : i = numSegments - 1
  · rw [if_pos hi2]
    subst hi2
    have hsub : (numSegments - 1) * (coordinates.length / numSegments) =
        numSegments * (coordinates.length / numSegments) -
          coordinates.length / numSegments := by
      rw [Nat.sub_mul, one_mul]
    rw [hsub]
    rcases (show coordinates.length / numSegments = 1 ∨
        2 ≤ coordinates.length / numSegments from by omega) with h1 | h2
    · have hM : numSegments * (coordinates.length / numSegments) = numSegments := by
        rw [h1, mul_one]
      rw [hM] at hdm ⊢
      rw [h1]
      omega
    · have hppsM : coordinates.length / numSegments ≤
          numSegments * (coordinates.length / numSegments) :=
        Nat.le_mul_of_pos_left _ hN
      generalize hMM : numSegments * (coordinates.length / numSegments) = M at hdm hppsM
      omega
  · rw [if_neg hi2]
    have hi3 : i ≤ numSegments - 2 := by omega
    have hN2 : 2 ≤ numSegments := by omega
    have hle1 : i * (coordinates.length / numSegments) ≤
        (numSegments - 2) * (coordinates.length / numSegments) :=
      Nat.mul_le_mul_right _ hi3
    have hsub2 : (numSegments - 2) * (coordinates.length / numSegments) =
        numSegments * (coordinates.length / numSegments) -
          2 * (coordinates.length / numSegments) := by
      rw [Nat.sub_mul]
    have h2M : 2 * (coordinates.length / numSegments) ≤
        numSegments * (coordinates.length / numSegments) :=
      Nat.mul_le_mul_right _ hN2
    have hsucc : (i + 1) * (coordinates.length / numSegments) =
        i * (coordinates.length / numSegments) + coordinates.length / numSegments :=
      Nat.succ_mul _ _
    rw [hsub2] at hle1
    generalize hMM : numSegments * (coordinates.length / numSegments) = M at hdm hle1 h2M
    generalize hKK : i * (coordinates.length / numSegments) = K at hle1 hsucc
    rw [hsucc]
    apply le_min <;> omega

/-- C3 counterexample: fixed-count segmentation of a 2-point route into 2
segments yields segment coordinate lists of lengths [2, 1]: the last
segment has a single coordinate, violating the claimed minimum of 2. -/
theorem claim_C3_counterexample :
    ((segmentByCoordinates [((0:ℝ), (0:ℝ)), (1, 1)] 2 none).map
      fun s => s.coordinates.length) = [2, 1] ∧
    ¬ ∀ s ∈ segmentByCoordinates [((0:ℝ), (0:ℝ)), (1, 1)] 2 none,
        2 ≤ s.coordinates.length := by
  have hmap : ((segmentByCoordinates [((0:ℝ), (0:ℝ)), (1, 1)] 2 none).map
      fun s => s.coordinates.length) = [2, 1] := rfl
  refine ⟨hmap, ?_⟩
  intro hall
  have h1 : (1 : ℕ) ∈ (segmentByCoordinates [((0:ℝ), (0:ℝ)), (1, 1)] 2 none).map
      (fun s => s.coordinates.length) := by
    rw [hmap]
    simp
  obtain ⟨s, hs, hfs⟩ := List.mem_map.mp h1
  have := hall s hs
  omega

/-- C3, amended: for every route with strictly more coordinate points than the
segment count (the original claim said at least as many, which fails when
they are equal), fixed-count segmentation returns exactly numSegments
segments and every returned segment has at least 2 coordinates. -/
theorem claim_C3_fixed_count (coordinates : List Coord) (numSegments : ℕ)
    (steps : Option (List RouteStep)) (hlen : numSegments < coordinates.length) :
    (segmentByCoordinates coordinates numSegments steps).length = numSegments ∧
    ∀ s ∈ segmentByCoordinates coordinates numSegments steps,
      2 ≤ s.coordinates.length := by
  have hmap := segmentByCoordinates_coords_map coordinates numSegments steps
  constructor
  · have hl := congrArg List.length hmap
    simpa using hl
  · intro s hs
    have hmem : s.coordinates ∈
        (List.range numSegments).map (countSegCoords coordinates numSegments) := by
      rw [← hmap]
      exact List.mem_map_of_mem _ hs
    obtain ⟨i, hi, hieq⟩ := List.mem_map.mp hmem
    rw [← hieq]
    exact countSegCoords_length_ge_two coordinates numSegments i
      (List.mem_range.mp hi) hlen

theorem claim_C3_fixed_count_witness :
    ((2:ℕ) < ([((0:ℝ), (0:ℝ)), (1, 0), (2, 0)] : List Coord).length) ∧
    ((segmentByCoordinates [((0:ℝ), (0:ℝ)), (1, 0), (2, 0)] 2 none).length = 2 ∧
    ∀ s ∈ segmentByCoordinates [((0:ℝ), (0:ℝ)), (1, 0), (2, 0)] 2 none,
      2 ≤ s.coordinates.length) :=
  ⟨by simp, claim_C3_fixed_count [((0:ℝ), (0:ℝ)), (1, 0), (2, 0)] 2 none (by simp)⟩

end FixedCountSegmentation

section POILabels

attribute [local instance] Classical.propDecidable

/-- The rectangular separation the claim asserts between two placed labels,
weakened to placements accepted by the validated search: a later placement
that the search validated is at least 22 px horizontally or 16 px
vertically away from every earlier one. -/
def labelSep (p q : LabelPlacement) : Prop :=
  q.found = true → 22 ≤ |p.labelX - q.labelX| ∨ 16 ≤ |p.labelY - q.labelY|

theorem firstValid_some {P : ℝ × ℝ → Prop} :
    ∀ {l : List (ℝ × ℝ)} {c : ℝ × ℝ}, firstValid P l = some c → P c := by
  intro l
  induction l with
  | nil => intro c h; simp [firstValid] at h
  | cons a t ih =>
    intro c h
    unfold firstValid at h
    by_cases hP : P a
    · rw [if_pos hP] at h
      cases h
      exact hP
    · rw [if_neg hP] at h
      exact ih h

theorem firstValid_none {P : ℝ × ℝ → Prop} (h : ∀ c, ¬ P c) :
    ∀ l : List (ℝ × ℝ), firstValid P l = none := by
  intro l
  induction l with
  | nil => rfl
  | cons a t ih =>
    unfold firstValid
    rw [if_neg (h a)]
    exact ih

/-- Invariant of the placement loop: if the accumulated placements satisfy the
separation relation pairwise, so does the final list, because a placement
accepted by the validated search was checked by isValid against every
already placed label and the fallback placements are marked not found. -/
theorem generatePOIMarkersLoop_pairwise (bounds : Bounds) (width height : ℝ)
    (routeCoords : List Coord) (routeSvg : List (ℝ × ℝ))
    (startPos endPos : Option (ℝ × ℝ)) :
    ∀ (pois : List POI) (acc : List LabelPlacement),
      List.Pairwise labelSep acc →
      List.Pairwise labelSep
        (generatePOIMarkersLoop bounds width height routeCoords routeSvg
          startPos endPos pois acc) := by
  intro pois
  induction pois with
  | nil =>
    intro acc hacc
    simpa [generatePOIMarkersLoop] using hacc
  | cons poi rest ih =>
    intro acc hacc
    simp only [generatePOIMarkersLoop]
    split
    · exact hacc
    · split
      · exact ih acc hacc
      · split
        · rename_i c heq
          apply ih
          have hval := firstValid_some heq
          have hsep := hval.2.2.2.2
          rw [List.pairwise_append]
          refine ⟨hacc, by simp, ?_⟩
          intro p hp q hq
          simp only [List.mem_singleton] at hq
          subst hq
          intro _
          have h5 := hsep (p.labelX, p.labelY)
            (List.mem_map_of_mem (fun pl => (pl.labelX, pl.labelY)) hp)
          rw [not_and_or, not_lt, not_lt] at h5
          rcases h5 with h | h
          · left
            rwa [abs_sub_comm]
          · right
            rwa [abs_sub_comm]
        · apply ih
          rw [List.pairwise_append]
          refine ⟨hacc, by simp, ?_⟩
          intro p hp q hq
          simp only [List.mem_singleton] at hq
          subst hq
          intro hfound
          simp at hfound

/-- C4, amended: for every render, any label placement accepted through the
validated search is separated from every earlier placement (validated or
fallback) by at least 22 px horizontally or at least 16 px vertically;
fallback placements, produced when no candidate validates, carry no such
guarantee. -/
theorem claim_C4_label_separation (pois : List POI) (bounds : Bounds)
    (width height : ℝ) (routeCoords : List Coord)
    (startPos endPos : Option (ℝ × ℝ)) :
    List.Pairwise labelSep
      (generatePOIMarkers pois bounds width height routeCoords startPos endPos) := by
  unfold generatePOIMarkers
  split
  · exact List.Pairwise.nil
  · exact generatePOIMarkersLoop_pairwise _ _ _ _ _ _ _ _ [] List.Pairwise.nil

/-- C4 counterexample: in a 30 by 30 viewport the 20 px margins leave no valid
label position, so both POIs take the clamped fallback, and the two
accepted label positions coincide at (20, 20): they are 0 px apart, far
below the required 22 px by 16 px separation. -/
theorem claim_C4_counterexample :
    ((generatePOIMarkers [⟨0.1, 0.1⟩, ⟨0.1, 0.1⟩] ⟨0, 1, 0, 1, 1/2, 1/2⟩ 30 30
      [((0.1:ℝ), (0.1:ℝ))] none none).map fun p => (p.labelX, p.labelY)) =
      [((20:ℝ), (20:ℝ)), (20, 20)] ∧
    ¬ (22 ≤ |(20:ℝ) - 20| ∨ 16 ≤ |(20:ℝ) - 20|) := by
  have hx0 : toSvgX 0.1 ⟨0, 1, 0, 1, 1/2, 1/2⟩ 30 = 3 := by
    unfold toSvgX
    norm_num
  have hy0 : toSvgY 0.1 ⟨0, 1, 0, 1, 1/2, 1/2⟩ 30 = 27 := by
    unfold toSvgY
    norm_num
  have hmin : minDistanceToRoute 0.1 0.1 [((0.1:ℝ), (0.1:ℝ))] = some 0 := by
    unfold minDistanceToRoute
    simp only [List.foldl_cons, List.foldl_nil]
    norm_num [Real.sqrt_zero]
  have hfilterP : (match minDistanceToRoute (0.1:ℝ) (0.1:ℝ) [((0.1:ℝ), (0.1:ℝ))] with
      | none => False | some d => d < 0.005) := by
    rw [hmin]
    norm_num
  have hpoi : (fun (poi : POI) => decide
      (match minDistanceToRoute poi.lon poi.lat [((0.1:ℝ), (0.1:ℝ))] with
        | none => False | some d => d < 0.005)) (⟨0.1, 0.1⟩ : POI) = true := by
    dsimp only
    exact decide_eq_true hfilterP
  have hnear : List.filter (fun (poi : POI) => decide
      (match minDistanceToRoute poi.lon poi.lat [((0.1:ℝ), (0.1:ℝ))] with
        | none => False | some d => d < 0.005)) [⟨0.1, 0.1⟩, ⟨0.1, 0.1⟩] =
      [(⟨0.1, 0.1⟩ : POI), ⟨0.1, 0.1⟩] := by
    rw [List.filter_cons, if_pos hpoi, List.filter_cons, if_pos hpoi, List.filter_nil]
  have hrsvg : [((0.1:ℝ), (0.1:ℝ))].map (fun c =>
      (toSvgX c.1 ⟨0, 1, 0, 1, 1/2, 1/2⟩ 30, toSvgY c.2 ⟨0, 1, 0, 1, 1/2, 1/2⟩ 30)) =
      [((3:ℝ), (27:ℝ))] := by
    simp only [List.map_cons, List.map_nil]
    rw [hx0, hy0]
  have hnoval : ∀ (used : List (ℝ × ℝ)) (lx ly : ℝ),
      ¬ isValidLabelPos 30 30 [((3:ℝ), (27:ℝ))] none none used lx ly := by
    intro used lx ly hval
    have hmarg := hval.1
    push_neg at hmarg
    have h1 := hmarg.1
    have h2 := hmarg.2.1
    norm_num at h2
    linarith
  have hfvnone : ∀ (used : List (ℝ × ℝ)) (cands : List (ℝ × ℝ)),
      firstValid (fun c => isValidLabelPos 30 30 [((3:ℝ), (27:ℝ))] none none used c.1 c.2)
        cands = none :=
    fun used cands => firstValid_none (fun c => hnoval used c.1 c.2) cands
  have hside : getPOISideOfRoute 3 27 [((0.1:ℝ), (0.1:ℝ))] ⟨0, 1, 0, 1, 1/2, 1/2⟩ 30 30 =
      Side.right := by
    unfold getPOISideOfRoute
    simp only [List.foldl_cons, List.foldl_nil]
    simp only [hx0]
    rw [if_neg (lt_irrefl (3:ℝ))]
  have hmarg30 : ¬ ((3:ℝ) < 0 ∨ (3:ℝ) > 30 ∨ (27:ℝ) < 0 ∨ (27:ℝ) > 30) := by norm_num
  have hdx : max 2 (min ((30:ℝ) - 2) 3) = 3 := by norm_num
  have hdy : max 2 (min ((30:ℝ) - 2) 27) = 27 := by norm_num
  have hlx : max 20 (min ((30:ℝ) - 20) (3 + 1 * 14)) = 20 := by
    rw [min_def, max_def]
    norm_num
  have hly : max 20 (min ((30:ℝ) - 20) 27) = 20 := by
    rw [min_def, max_def]
    norm_num
  have hstep : ∀ (rest : List POI) (acc : List LabelPlacement), acc.length < 3 →
      generatePOIMarkersLoop ⟨0, 1, 0, 1, 1/2, 1/2⟩ 30 30 [((0.1:ℝ), (0.1:ℝ))]
        [((3:ℝ), (27:ℝ))] none none ((⟨0.1, 0.1⟩ : POI) :: rest) acc =
      generatePOIMarkersLoop ⟨0, 1, 0, 1, 1/2, 1/2⟩ 30 30 [((0.1:ℝ), (0.1:ℝ))]
        [((3:ℝ), (27:ℝ))] none none rest (acc ++ [⟨3, 27, 20, 20, false⟩]) := by
    intro rest acc hlen
    simp only [generatePOIMarkersLoop]
    rw [if_neg (by omega : ¬ 3 ≤ acc.length)]
    simp only [hx0, hy0]
    rw [if_neg hmarg30]
    simp only [hdx, hdy, hside, hfvnone, hlx, hly]
  have hmain : generatePOIMarkers [⟨0.1, 0.1⟩, ⟨0.1, 0.1⟩] ⟨0, 1, 0, 1, 1/2, 1/2⟩ 30 30
      [((0.1:ℝ), (0.1:ℝ))] none none =
      [⟨3, 27, 20, 20, false⟩, ⟨3, 27, 20, 20, false⟩] := by
    unfold generatePOIMarkers
    rw [if_neg (by simp)]
    dsimp only
    rw [hnear, hrsvg]
    rw [hstep [⟨0.1, 0.1⟩] [] (by simp)]
    simp only [List.nil_append]
    rw [hstep [] [⟨3, 27, 20, 20, false⟩] (by simp)]
    simp [generatePOIMarkersLoop]
  rw [hmain]
  norm_num

end POILabels

end EmergencyDirections
